import Mathlib

/-! # Predicate-expression encoder (`predexp.go`)

A shallow embedding of the predicate-expression nodes of the Aerospike Go
client and of their tag-length-value encoding, followed by theorems about the
encoding.

Conventions of the embedding.

* Go `uint16`, `uint32` are `Nat` and `int64` is `Int`; a theorem that depends
  on a value being in range carries the range as a hypothesis, and every Go
  conversion (`uint32(...)`, `uint8(...)`) is an explicit `%`.
* Go `int` (the result of `len` and of `marshaledSize`) is `Nat`: a string
  occupies fewer than `2^63 - 9` bytes of memory, so `6 + 1 + 2 + len(s)`
  never wraps.
* Go `string` is a list of bytes and `len` is its length.
* A method with a pointer receiver that writes into `*baseCommand` takes the
  sink and returns the sink after the writes, paired with the returned `error`.
-/

namespace Aerospike

/-! ## Bytes, strings, errors -/

/-- One octet. -/
abbrev Byte := Fin 256

/-- The low eight bits of a number: Go `uint8(n)`. -/
def byte (n : Nat) : Byte := ⟨n % 256, Nat.mod_lt _ (by decide)⟩

/-- Go `string`: a sequence of bytes; `len(s)` is `s.length`. -/
abbrev GoString := List Byte

/-- Go `error`; `none` is `nil`. -/
abbrev error := Option String

/-! ## Tag registry (`const` block, lines 23-55) -/

def _AS_PREDEXP_UNKNOWN_BIN : Nat := 65535

def _AS_PREDEXP_AND : Nat := 1
def _AS_PREDEXP_OR : Nat := 2
def _AS_PREDEXP_NOT : Nat := 3

def _AS_PREDEXP_INTEGER_VALUE : Nat := 10
def _AS_PREDEXP_STRING_VALUE : Nat := 11
def _AS_PREDEXP_GEOJSON_VALUE : Nat := 12

def _AS_PREDEXP_INTEGER_BIN : Nat := 100
def _AS_PREDEXP_STRING_BIN : Nat := 101
def _AS_PREDEXP_GEOJSON_BIN : Nat := 102

def _AS_PREDEXP_RECSIZE : Nat := 150
def _AS_PREDEXP_LAST_UPDATE : Nat := 151
def _AS_PREDEXP_VOID_TIME : Nat := 152

def _AS_PREDEXP_INTEGER_EQUAL : Nat := 200
def _AS_PREDEXP_INTEGER_UNEQUAL : Nat := 201
def _AS_PREDEXP_INTEGER_GREATER : Nat := 202
def _AS_PREDEXP_INTEGER_GREATEREQ : Nat := 203
def _AS_PREDEXP_INTEGER_LESS : Nat := 204
def _AS_PREDEXP_INTEGER_LESSEQ : Nat := 205

def _AS_PREDEXP_STRING_EQUAL : Nat := 210
def _AS_PREDEXP_STRING_UNEQUAL : Nat := 211
def _AS_PREDEXP_STRING_REGEX : Nat := 212

def _AS_PREDEXP_GEOJSON_WITHIN : Nat := 220
def _AS_PREDEXP_GEOJSON_CONTAINS : Nat := 221

/-! ## The byte sink -/

/-- Modelled from the spec: the write interface of the byte sink. The sink type
`baseCommand` and its methods `WriteByte`, `WriteUint16`, `WriteUint32`,
`WriteInt64`, `WriteString` are declared outside `predexp.go`; the spec (§6)
requires of the collaborator exactly these five writers. Each takes the sink
and the value and returns the sink after the write together with the error it
reports. The encoder below is written against this interface, so that what it
does with the results of the writers does not depend on one sink. -/
structure SinkWriter (σ : Type) where
  WriteByte : σ → Byte → σ × error
  WriteUint16 : σ → Nat → σ × error
  WriteUint32 : σ → Nat → σ × error
  WriteInt64 : σ → Int → σ × error
  WriteString : σ → GoString → σ × error

/-- Modelled from the spec: the byte sink `baseCommand`, which is declared
outside `predexp.go`. Spec §2: "an append-only buffer supporting fixed-width
integer writes (16-bit, 32-bit, 64-bit) and raw byte/string writes".
`dataBuffer` holds the bytes written so far, oldest first. -/
structure baseCommand where
  dataBuffer : List Byte
deriving DecidableEq, Repr

/-- Modelled from the spec: the two bytes of a 16-bit value, most significant
first (spec §4.3 and §6: one byte order for all multi-byte integers,
big-endian). -/
def putUint16 (n : Nat) : List Byte := [byte (n / 256), byte n]

/-- Modelled from the spec: the four bytes of a 32-bit value, most significant
first. -/
def putUint32 (n : Nat) : List Byte :=
  [byte (n / 16777216), byte (n / 65536), byte (n / 256), byte n]

/-- Modelled from the spec: the eight bytes of a 64-bit value, most significant
first. -/
def putUint64 (n : Nat) : List Byte :=
  [byte (n / 72057594037927936), byte (n / 281474976710656),
   byte (n / 1099511627776), byte (n / 4294967296),
   byte (n / 16777216), byte (n / 65536), byte (n / 256), byte n]

/-- Modelled from the spec: `WriteByte` appends the byte and reports no error
(spec §6: each writer "advances the cursor by the corresponding fixed width"). -/
def baseCommand.WriteByte (cmd : baseCommand) (b : Byte) : baseCommand × error :=
  (⟨cmd.dataBuffer ++ [b]⟩, none)

/-- Modelled from the spec: `WriteUint16` appends the two bytes of the value. -/
def baseCommand.WriteUint16 (cmd : baseCommand) (num : Nat) : baseCommand × error :=
  (⟨cmd.dataBuffer ++ putUint16 num⟩, none)

/-- Modelled from the spec: `WriteUint32` appends the four bytes of the value. -/
def baseCommand.WriteUint32 (cmd : baseCommand) (num : Nat) : baseCommand × error :=
  (⟨cmd.dataBuffer ++ putUint32 num⟩, none)

/-- Modelled from the spec: `WriteInt64` appends the eight bytes of the
two's-complement representation of the value, `num mod 2^64`. -/
def baseCommand.WriteInt64 (cmd : baseCommand) (num : Int) : baseCommand × error :=
  (⟨cmd.dataBuffer ++ putUint64 (num % 18446744073709551616).toNat⟩, none)

/-- Modelled from the spec: `WriteString` appends the raw bytes of the string. -/
def baseCommand.WriteString (cmd : baseCommand) (s : GoString) : baseCommand × error :=
  (⟨cmd.dataBuffer ++ s⟩, none)

/-- Modelled from the spec: the append-only buffer as an instance of the write
interface. -/
def baseCommand.writer : SinkWriter baseCommand where
  WriteByte := baseCommand.WriteByte
  WriteUint16 := baseCommand.WriteUint16
  WriteUint32 := baseCommand.WriteUint32
  WriteInt64 := baseCommand.WriteInt64
  WriteString := baseCommand.WriteString

/-! ## `predExpBase` (lines 65-75) -/

structure predExpBase where
deriving DecidableEq, Repr

/-- `predExpBase.marshaledSize`: `sizeof(TAG) + sizeof(LEN)`. -/
def predExpBase.marshaledSize (_self : predExpBase) : Nat := 2 + 4

/-- `predExpBase.marshalTL`: writes the tag and the length; the results of the
two writers are dropped, as in the source. -/
def predExpBase.marshalTL {σ : Type} (W : SinkWriter σ) (_self : predExpBase)
    (cmd : σ) (tag : Nat) (len : Nat) : σ :=
  let cmd := (W.WriteUint16 cmd tag).1
  let cmd := (W.WriteUint32 cmd len).1
  cmd

/-! ## `predExpAnd` (lines 79-100) -/

structure predExpAnd where
  base : predExpBase := {}
  nexpr : Nat
deriving DecidableEq, Repr

def NewPredExpAnd (nexpr : Nat) : predExpAnd := { nexpr := nexpr }

def predExpAnd.marshaledSize (self : predExpAnd) : Nat :=
  self.base.marshaledSize + 2

def predExpAnd.marshal {σ : Type} (W : SinkWriter σ) (self : predExpAnd) (cmd : σ) :
    σ × error :=
  let cmd := self.base.marshalTL W cmd _AS_PREDEXP_AND 2
  let cmd := (W.WriteUint16 cmd self.nexpr).1
  (cmd, none)

/-! ## `predExpOr` (lines 104-125) -/

structure predExpOr where
  base : predExpBase := {}
  nexpr : Nat
deriving DecidableEq, Repr

def NewPredExpOr (nexpr : Nat) : predExpOr := { nexpr := nexpr }

def predExpOr.marshaledSize (self : predExpOr) : Nat :=
  self.base.marshaledSize + 2

def predExpOr.marshal {σ : Type} (W : SinkWriter σ) (self : predExpOr) (cmd : σ) :
    σ × error :=
  let cmd := self.base.marshalTL W cmd _AS_PREDEXP_OR 2
  let cmd := (W.WriteUint16 cmd self.nexpr).1
  (cmd, none)

/-! ## `predExpNot` (lines 129-148) -/

structure predExpNot where
  base : predExpBase := {}
deriving DecidableEq, Repr

def NewPredExpNot : predExpNot := {}

def predExpNot.marshaledSize (self : predExpNot) : Nat :=
  self.base.marshaledSize

def predExpNot.marshal {σ : Type} (W : SinkWriter σ) (self : predExpNot) (cmd : σ) :
    σ × error :=
  let cmd := self.base.marshalTL W cmd _AS_PREDEXP_NOT 0
  (cmd, none)

/-! ## `predExpIntegerValue` (lines 152-173) -/

structure predExpIntegerValue where
  base : predExpBase := {}
  val : Int
deriving DecidableEq, Repr

def NewPredExpIntegerValue (val : Int) : predExpIntegerValue := { val := val }

def predExpIntegerValue.marshaledSize (self : predExpIntegerValue) : Nat :=
  self.base.marshaledSize + 8

def predExpIntegerValue.marshal {σ : Type} (W : SinkWriter σ)
    (self : predExpIntegerValue) (cmd : σ) : σ × error :=
  let cmd := self.base.marshalTL W cmd _AS_PREDEXP_INTEGER_VALUE 8
  let cmd := (W.WriteInt64 cmd self.val).1
  (cmd, none)

/-! ## `predExpStringValue` (lines 177-198) -/

structure predExpStringValue where
  base : predExpBase := {}
  val : GoString
deriving DecidableEq, Repr

def NewPredExpStringValue (val : GoString) : predExpStringValue := { val := val }

def predExpStringValue.marshaledSize (self : predExpStringValue) : Nat :=
  self.base.marshaledSize + self.val.length

def predExpStringValue.marshal {σ : Type} (W : SinkWriter σ)
    (self : predExpStringValue) (cmd : σ) : σ × error :=
  let cmd := self.base.marshalTL W cmd _AS_PREDEXP_STRING_VALUE
    (self.val.length % 4294967296)
  let cmd := (W.WriteString cmd self.val).1
  (cmd, none)

/-! ## `predExpGeoJSONValue` (lines 202-228) -/

structure predExpGeoJSONValue where
  base : predExpBase := {}
  val : GoString
deriving DecidableEq, Repr

def NewPredExpGeoJSONValue (val : GoString) : predExpGeoJSONValue := { val := val }

def predExpGeoJSONValue.marshaledSize (self : predExpGeoJSONValue) : Nat :=
  self.base.marshaledSize +
    1 + -- flags
    2 + -- ncells
    self.val.length -- strlen value

def predExpGeoJSONValue.marshal {σ : Type} (W : SinkWriter σ)
    (self : predExpGeoJSONValue) (cmd : σ) : σ × error :=
  let cmd := self.base.marshalTL W cmd _AS_PREDEXP_GEOJSON_VALUE
    ((1 + 2 + self.val.length) % 4294967296)
  let cmd := (W.WriteByte cmd (byte 0)).1
  let cmd := (W.WriteUint16 cmd 0).1
  let cmd := (W.WriteString cmd self.val).1
  (cmd, none)

/-! ## `predExpBin` (lines 232-267) -/

structure predExpBin where
  base : predExpBase := {}
  name : GoString
  tag : Nat
deriving DecidableEq, Repr

def NewPredExpUnknownBin (name : GoString) : predExpBin :=
  { name := name, tag := _AS_PREDEXP_UNKNOWN_BIN }

def NewPredExpIntegerBin (name : GoString) : predExpBin :=
  { name := name, tag := _AS_PREDEXP_INTEGER_BIN }

def NewPredExpStringBin (name : GoString) : predExpBin :=
  { name := name, tag := _AS_PREDEXP_STRING_BIN }

def NewPredExpGeoJSONBin (name : GoString) : predExpBin :=
  { name := name, tag := _AS_PREDEXP_GEOJSON_BIN }

def predExpBin.marshaledSize (self : predExpBin) : Nat :=
  self.base.marshaledSize + 1 + self.name.length

def predExpBin.marshal {σ : Type} (W : SinkWriter σ) (self : predExpBin) (cmd : σ) :
    σ × error :=
  let cmd := self.base.marshalTL W cmd self.tag ((1 + self.name.length) % 4294967296)
  let cmd := (W.WriteByte cmd (byte self.name.length)).1
  let cmd := (W.WriteString cmd self.name).1
  (cmd, none)

/-! ## `predExpMD` (lines 271-308) -/

structure predExpMD where
  base : predExpBase := {}
  tag : Nat
deriving DecidableEq, Repr

/-- `predExpMD.String`. The result is `Except.ok` of the string returned, or
`Except.error` of the value handed to `panic`. -/
def predExpMD.String (e : predExpMD) : Except String String :=
  if e.tag = _AS_PREDEXP_RECSIZE then
    .ok "rec.Size"
  else if e.tag = _AS_PREDEXP_LAST_UPDATE then
    .ok "rec.LastUpdate"
  else if e.tag = _AS_PREDEXP_VOID_TIME then
    .ok "rec.Expiration"
  else
    .error "Invalid Metadata tag."

def predExpMD.marshaledSize (self : predExpMD) : Nat :=
  self.base.marshaledSize

def predExpMD.marshal {σ : Type} (W : SinkWriter σ) (self : predExpMD) (cmd : σ) :
    σ × error :=
  let cmd := self.base.marshalTL W cmd self.tag 0
  (cmd, none)

def NewPredExpRecSize : predExpMD := { tag := _AS_PREDEXP_RECSIZE }

def NewPredExpLastUpdate : predExpMD := { tag := _AS_PREDEXP_LAST_UPDATE }

def NewPredExpVoidTime : predExpMD := { tag := _AS_PREDEXP_VOID_TIME }

/-! ## `predExpCompare` (lines 312-389) -/

structure predExpCompare where
  base : predExpBase := {}
  tag : Nat
deriving DecidableEq, Repr

/-- `predExpCompare.String`. The result is `Except.ok` of the string returned,
or `Except.error` of the value handed to `panic`. That value is
`fmt.Sprintf("unexpected predicate tag:", e.tag)`: the format has no verb for
its operand, so `Sprintf` appends `%!(EXTRA uint16=<tag>)` to the text. -/
def predExpCompare.String (e : predExpCompare) : Except String String :=
  if e.tag = _AS_PREDEXP_INTEGER_EQUAL ∨ e.tag = _AS_PREDEXP_STRING_EQUAL then
    .ok "="
  else if e.tag = _AS_PREDEXP_INTEGER_UNEQUAL ∨ e.tag = _AS_PREDEXP_STRING_UNEQUAL then
    .ok "!="
  else if e.tag = _AS_PREDEXP_INTEGER_GREATER then
    .ok ">"
  else if e.tag = _AS_PREDEXP_INTEGER_GREATEREQ then
    .ok ">="
  else if e.tag = _AS_PREDEXP_INTEGER_LESS then
    .ok "<"
  else if e.tag = _AS_PREDEXP_INTEGER_LESSEQ then
    .ok "<="
  else if e.tag = _AS_PREDEXP_STRING_REGEX then
    .ok "~="
  else if e.tag = _AS_PREDEXP_GEOJSON_CONTAINS then
    .ok "CONTAINS"
  else if e.tag = _AS_PREDEXP_GEOJSON_WITHIN then
    .ok "WITHIN"
  else
    .error ("unexpected predicate tag:%!(EXTRA uint16=" ++ toString e.tag ++ ")")

def predExpCompare.marshaledSize (self : predExpCompare) : Nat :=
  self.base.marshaledSize

def predExpCompare.marshal {σ : Type} (W : SinkWriter σ) (self : predExpCompare)
    (cmd : σ) : σ × error :=
  let cmd := self.base.marshalTL W cmd self.tag 0
  (cmd, none)

def NewPredExpIntegerEqual : predExpCompare := { tag := _AS_PREDEXP_INTEGER_EQUAL }

def NewPredExpIntegerUnequal : predExpCompare := { tag := _AS_PREDEXP_INTEGER_UNEQUAL }

def NewPredExpIntegerGreater : predExpCompare := { tag := _AS_PREDEXP_INTEGER_GREATER }

def NewPredExpIntegerGreaterEq : predExpCompare :=
  { tag := _AS_PREDEXP_INTEGER_GREATEREQ }

def NewPredExpIntegerLess : predExpCompare := { tag := _AS_PREDEXP_INTEGER_LESS }

def NewPredExpIntegerLessEq : predExpCompare := { tag := _AS_PREDEXP_INTEGER_LESSEQ }

def NewPredExpStringEqual : predExpCompare := { tag := _AS_PREDEXP_STRING_EQUAL }

def NewPredExpStringUnequal : predExpCompare := { tag := _AS_PREDEXP_STRING_UNEQUAL }

def NewPredExpGeoJSONWithin : predExpCompare := { tag := _AS_PREDEXP_GEOJSON_WITHIN }

def NewPredExpGeoJSONContains : predExpCompare :=
  { tag := _AS_PREDEXP_GEOJSON_CONTAINS }

/-! ## `predExpStringRegex` (lines 393-414) -/

structure predExpStringRegex where
  base : predExpBase := {}
  cflags : Nat
deriving DecidableEq, Repr

def NewPredExpStringRegex (cflags : Nat) : predExpStringRegex := { cflags := cflags }

def predExpStringRegex.marshaledSize (self : predExpStringRegex) : Nat :=
  self.base.marshaledSize + 4

def predExpStringRegex.marshal {σ : Type} (W : SinkWriter σ)
    (self : predExpStringRegex) (cmd : σ) : σ × error :=
  let cmd := self.base.marshalTL W cmd _AS_PREDEXP_STRING_REGEX 4
  let cmd := (W.WriteUint32 cmd self.cflags).1
  (cmd, none)

/-! ## The `predExp` interface (lines 59-63) -/

/-- The interface `predExp`: a value of one of the ten node types that
implement it. A method call on the interface dispatches on the node type. -/
inductive predExp where
  | And (e : predExpAnd)
  | Or (e : predExpOr)
  | Not (e : predExpNot)
  | IntegerValue (e : predExpIntegerValue)
  | StringValue (e : predExpStringValue)
  | GeoJSONValue (e : predExpGeoJSONValue)
  | Bin (e : predExpBin)
  | MD (e : predExpMD)
  | Compare (e : predExpCompare)
  | StringRegex (e : predExpStringRegex)
deriving DecidableEq, Repr

def predExp.marshaledSize : predExp → Nat
  | .And e => e.marshaledSize
  | .Or e => e.marshaledSize
  | .Not e => e.marshaledSize
  | .IntegerValue e => e.marshaledSize
  | .StringValue e => e.marshaledSize
  | .GeoJSONValue e => e.marshaledSize
  | .Bin e => e.marshaledSize
  | .MD e => e.marshaledSize
  | .Compare e => e.marshaledSize
  | .StringRegex e => e.marshaledSize

def predExp.marshal {σ : Type} (W : SinkWriter σ) : predExp → σ → σ × error
  | .And e, cmd => e.marshal W cmd
  | .Or e, cmd => e.marshal W cmd
  | .Not e, cmd => e.marshal W cmd
  | .IntegerValue e, cmd => e.marshal W cmd
  | .StringValue e, cmd => e.marshal W cmd
  | .GeoJSONValue e, cmd => e.marshal W cmd
  | .Bin e, cmd => e.marshal W cmd
  | .MD e, cmd => e.marshal W cmd
  | .Compare e, cmd => e.marshal W cmd
  | .StringRegex e, cmd => e.marshal W cmd

/-- The tag a node hands to `marshalTL`: the constant of its type, or its
`tag` field for the three types that store it. -/
def predExp.kind : predExp → Nat
  | .And _ => _AS_PREDEXP_AND
  | .Or _ => _AS_PREDEXP_OR
  | .Not _ => _AS_PREDEXP_NOT
  | .IntegerValue _ => _AS_PREDEXP_INTEGER_VALUE
  | .StringValue _ => _AS_PREDEXP_STRING_VALUE
  | .GeoJSONValue _ => _AS_PREDEXP_GEOJSON_VALUE
  | .Bin e => e.tag
  | .MD e => e.tag
  | .Compare e => e.tag
  | .StringRegex _ => _AS_PREDEXP_STRING_REGEX

/-- A call of one of the 24 public constructors, with its arguments. -/
inductive Constructor where
  | And (nexpr : Nat)
  | Or (nexpr : Nat)
  | Not
  | IntegerValue (val : Int)
  | StringValue (val : GoString)
  | GeoJSONValue (val : GoString)
  | UnknownBin (name : GoString)
  | IntegerBin (name : GoString)
  | StringBin (name : GoString)
  | GeoJSONBin (name : GoString)
  | RecSize
  | LastUpdate
  | VoidTime
  | IntegerEqual
  | IntegerUnequal
  | IntegerGreater
  | IntegerGreaterEq
  | IntegerLess
  | IntegerLessEq
  | StringEqual
  | StringUnequal
  | GeoJSONWithin
  | GeoJSONContains
  | StringRegex (cflags : Nat)
deriving DecidableEq, Repr

/-- The node a constructor call returns, as a value of the interface. -/
def Constructor.node : Constructor → predExp
  | .And nexpr => .And (NewPredExpAnd nexpr)
  | .Or nexpr => .Or (NewPredExpOr nexpr)
  | .Not => .Not NewPredExpNot
  | .IntegerValue val => .IntegerValue (NewPredExpIntegerValue val)
  | .StringValue val => .StringValue (NewPredExpStringValue val)
  | .GeoJSONValue val => .GeoJSONValue (NewPredExpGeoJSONValue val)
  | .UnknownBin name => .Bin (NewPredExpUnknownBin name)
  | .IntegerBin name => .Bin (NewPredExpIntegerBin name)
  | .StringBin name => .Bin (NewPredExpStringBin name)
  | .GeoJSONBin name => .Bin (NewPredExpGeoJSONBin name)
  | .RecSize => .MD NewPredExpRecSize
  | .LastUpdate => .MD NewPredExpLastUpdate
  | .VoidTime => .MD NewPredExpVoidTime
  | .IntegerEqual => .Compare NewPredExpIntegerEqual
  | .IntegerUnequal => .Compare NewPredExpIntegerUnequal
  | .IntegerGreater => .Compare NewPredExpIntegerGreater
  | .IntegerGreaterEq => .Compare NewPredExpIntegerGreaterEq
  | .IntegerLess => .Compare NewPredExpIntegerLess
  | .IntegerLessEq => .Compare NewPredExpIntegerLessEq
  | .StringEqual => .Compare NewPredExpStringEqual
  | .StringUnequal => .Compare NewPredExpStringUnequal
  | .GeoJSONWithin => .Compare NewPredExpGeoJSONWithin
  | .GeoJSONContains => .Compare NewPredExpGeoJSONContains
  | .StringRegex cflags => .StringRegex (NewPredExpStringRegex cflags)

/-- Which of the 24 public constructors was called: its position in the
list of `Constructor`, the arguments forgotten. -/
def Constructor.index : Constructor → Nat
  | .And _ => 0
  | .Or _ => 1
  | .Not => 2
  | .IntegerValue _ => 3
  | .StringValue _ => 4
  | .GeoJSONValue _ => 5
  | .UnknownBin _ => 6
  | .IntegerBin _ => 7
  | .StringBin _ => 8
  | .GeoJSONBin _ => 9
  | .RecSize => 10
  | .LastUpdate => 11
  | .VoidTime => 12
  | .IntegerEqual => 13
  | .IntegerUnequal => 14
  | .IntegerGreater => 15
  | .IntegerGreaterEq => 16
  | .IntegerLess => 17
  | .IntegerLessEq => 18
  | .StringEqual => 19
  | .StringUnequal => 20
  | .GeoJSONWithin => 21
  | .GeoJSONContains => 22
  | .StringRegex _ => 23

/-! ## Encoding into the append-only buffer -/

/-- The bytes `marshal` leaves in an empty buffer. -/
def predExp.encode (e : predExp) : List Byte :=
  (e.marshal baseCommand.writer ⟨[]⟩).1.dataBuffer

/-- The bytes of a node's encoding after the six header bytes. -/
def predExp.payload (e : predExp) : List Byte := e.encode.drop 6

/-- Modelled from the spec: the caller's encode pass (spec §2: the caller
"encodes each node in sequence into the sink via `encode`"); the loop itself
is outside `predexp.go`. -/
def marshalAll {σ : Type} (W : SinkWriter σ) : List predExp → σ → σ
  | [], cmd => cmd
  | e :: es, cmd => marshalAll W es (e.marshal W cmd).1

/-! ## The wire grammar of spec §6 -/

/-- The number a byte sequence denotes, most significant byte first. -/
def beUint (bs : List Byte) : Nat := bs.foldl (fun acc b => acc * 256 + b.val) 0

/-- The signed reading of a 64-bit two's-complement number. -/
def toInt64 (u : Nat) : Int :=
  if u < 9223372036854775808 then (u : Int) else (u : Int) - 18446744073709551616

/-- The header of spec §4.1 read back from the first six bytes: a 16-bit tag,
then a 32-bit length. `none` when fewer than six bytes are present. -/
def decodeTL : List Byte → Option (Nat × Nat)
  | t1 :: t0 :: l3 :: l2 :: l1 :: l0 :: _ => some (beUint [t1, t0], beUint [l3, l2, l1, l0])
  | _ => none

/-- The bytes `out` are one framed unit with the given header fields: the
first six bytes read back as `(tag, len)` and the bytes after them are exactly
`payload`. -/
def Framed (out : List Byte) (tag len : Nat) (payload : List Byte) : Prop :=
  decodeTL out = some (tag, len) ∧ out.drop 6 = payload

instance (out : List Byte) (tag len : Nat) (payload : List Byte) :
    Decidable (Framed out tag len payload) := by
  unfold Framed
  infer_instance

/-- The node `e` is encoded as a bare header of tag `tag`: `marshaledSize()` is
6 and, on every buffer, `marshal` reports no error and appends exactly six
bytes, which read back as `(tag, 0)` with no payload behind them. -/
def HeaderOnly (e : predExp) (tag : Nat) : Prop :=
  e.marshaledSize = 6 ∧
  ∀ cmd : baseCommand, ∃ out : List Byte,
    e.marshal baseCommand.writer cmd = (⟨cmd.dataBuffer ++ out⟩, none) ∧
    out.length = 6 ∧ Framed out tag 0 []

/-- One unit of the wire grammar: its tag, its length field and its payload. -/
structure TLV where
  tag : Nat
  len : Nat
  payload : List Byte
deriving DecidableEq, Repr

/-- The grammar rule `node := tag:uint16 | len:uint32 | payload:byte[len]`:
reads one node off the front of the input and returns it with the rest of the
input; `none` when the header or the payload is cut short. -/
def parseNode (bs : List Byte) : Option (TLV × List Byte) :=
  match decodeTL bs with
  | none => none
  | some (tag, len) =>
    let body := bs.drop 6
    if len ≤ body.length then some (⟨tag, len, body.take len⟩, body.drop len) else none

/-- The grammar rule `stream := node*` with a bound on the number of nodes
read: succeeds when the input is used up, fails when a node does not parse or
the bound is reached with input left. -/
def parseStreamAux : Nat → List Byte → Option (List TLV)
  | _, [] => some []
  | 0, _ :: _ => none
  | fuel + 1, b :: bs =>
    match parseNode (b :: bs) with
    | none => none
    | some (t, rest) =>
      match parseStreamAux fuel rest with
      | none => none
      | some ts => some (t :: ts)

/-- The grammar rule `stream := node*`. A node takes at least six bytes, so an
input of `n` bytes holds at most `n` nodes. -/
def parseStream (bs : List Byte) : Option (List TLV) := parseStreamAux bs.length bs

/-- The `width` bytes of a number in the fixed-width layout of spec §6, most
significant byte first. -/
def bigEndian : Nat → Nat → List Byte
  | 0, _ => []
  | width + 1, n => bigEndian width (n / 256) ++ [byte n]

/-- The payload of a node as the spec defines it from the node's fields (table
of §3, and §4.2 to §4.7), written without reference to `marshal`:
a 16-bit child count for And and Or; nothing for Not, the metadata nodes and
the comparison nodes; the 64-bit two's-complement value for an integer value;
the raw bytes for a string value; a flag byte 0, a 16-bit cell count 0 and the
raw bytes for a GeoJSON value; a one-byte name length and the name bytes for a
bin; the 32-bit flags for a regex node. -/
def predExp.specPayload : predExp → List Byte
  | .And e => bigEndian 2 e.nexpr
  | .Or e => bigEndian 2 e.nexpr
  | .Not _ => []
  | .IntegerValue e => bigEndian 8 (e.val % 18446744073709551616).toNat
  | .StringValue e => e.val
  | .GeoJSONValue e => [0] ++ bigEndian 2 0 ++ e.val
  | .Bin e => [byte e.name.length] ++ e.name
  | .MD _ => []
  | .Compare _ => []
  | .StringRegex e => bigEndian 4 e.cflags

/-- What the grammar should read back for a node: its own tag, and the length
and the bytes of the payload its fields define. -/
def predExp.toTLV (e : predExp) : TLV := ⟨e.kind, e.specPayload.length, e.specPayload⟩

/-! ## Lemmas on the byte order and on the shape of an encoding -/

@[simp] theorem byte_val (n : Nat) : (byte n).val = n % 256 := rfl

theorem beUint_putUint16 (n : Nat) : beUint (putUint16 n) = n % 65536 := by
  simp only [beUint, putUint16, List.foldl, byte_val]
  omega

theorem beUint_putUint32 (n : Nat) : beUint (putUint32 n) = n % 4294967296 := by
  simp only [beUint, putUint32, List.foldl, byte_val]
  omega

theorem beUint_putUint64 (n : Nat) : beUint (putUint64 n) = n % 18446744073709551616 := by
  simp only [beUint, putUint64, List.foldl, byte_val]
  omega

theorem toInt64_emod (v : Int) (hlo : -9223372036854775808 ≤ v)
    (hhi : v < 9223372036854775808) :
    toInt64 (v % 18446744073709551616).toNat = v := by
  unfold toInt64
  split <;> omega

@[simp] theorem putUint16_length (n : Nat) : (putUint16 n).length = 2 := rfl

@[simp] theorem putUint32_length (n : Nat) : (putUint32 n).length = 4 := rfl

@[simp] theorem putUint64_length (n : Nat) : (putUint64 n).length = 8 := rfl

/-- Every encoding is a header made of the node's tag and of the length of
the rest modulo `2^32`, followed by the rest. -/
theorem encode_split (e : predExp) :
    ∃ body, e.encode = putUint16 e.kind ++ (putUint32 (body.length % 4294967296) ++ body) := by
  cases e with
  | And e => exact ⟨putUint16 e.nexpr, rfl⟩
  | Or e => exact ⟨putUint16 e.nexpr, rfl⟩
  | Not e => exact ⟨[], rfl⟩
  | IntegerValue e => exact ⟨putUint64 (e.val % 18446744073709551616).toNat, rfl⟩
  | StringValue e =>
    refine ⟨e.val, ?_⟩
    simp [predExp.encode, predExp.marshal, predExp.kind, predExpStringValue.marshal,
      predExpBase.marshalTL, baseCommand.writer, baseCommand.WriteUint16,
      baseCommand.WriteUint32, baseCommand.WriteString]
  | GeoJSONValue e =>
    refine ⟨byte 0 :: (putUint16 0 ++ e.val), ?_⟩
    have h : 1 + 2 + e.val.length = (byte 0 :: (putUint16 0 ++ e.val)).length := by
      simp; omega
    simp only [predExp.encode, predExp.marshal, predExp.kind, predExpGeoJSONValue.marshal,
      predExpBase.marshalTL, baseCommand.writer, baseCommand.WriteUint16,
      baseCommand.WriteUint32, baseCommand.WriteString, baseCommand.WriteByte, h]
    simp
  | Bin e =>
    refine ⟨byte e.name.length :: e.name, ?_⟩
    have h : 1 + e.name.length = (byte e.name.length :: e.name).length := by
      simp; omega
    simp only [predExp.encode, predExp.marshal, predExp.kind, predExpBin.marshal,
      predExpBase.marshalTL, baseCommand.writer, baseCommand.WriteUint16,
      baseCommand.WriteUint32, baseCommand.WriteString, baseCommand.WriteByte, h]
    simp
  | MD e => exact ⟨[], rfl⟩
  | Compare e => exact ⟨[], rfl⟩
  | StringRegex e => exact ⟨putUint32 e.cflags, rfl⟩

/-- The header and payload of a node in the append-only buffer: the tag, the
payload length modulo `2^32`, the payload. -/
theorem encode_eq (e : predExp) :
    e.encode = putUint16 e.kind ++ (putUint32 (e.payload.length % 4294967296) ++ e.payload) := by
  obtain ⟨body, h⟩ := encode_split e
  have hp : e.payload = body := by
    simp [predExp.payload, h, putUint16, putUint32]
  rw [hp]
  exact h

theorem marshal_eq (e : predExp) (cmd : baseCommand) :
    e.marshal baseCommand.writer cmd = (⟨cmd.dataBuffer ++ e.encode⟩, none) := by
  cases e <;>
    simp [predExp.encode, predExp.marshal,
      predExpAnd.marshal, predExpOr.marshal, predExpNot.marshal, predExpIntegerValue.marshal,
      predExpStringValue.marshal, predExpGeoJSONValue.marshal, predExpBin.marshal,
      predExpMD.marshal, predExpCompare.marshal, predExpStringRegex.marshal,
      predExpBase.marshalTL, baseCommand.writer, baseCommand.WriteByte,
      baseCommand.WriteUint16, baseCommand.WriteUint32, baseCommand.WriteInt64,
      baseCommand.WriteString]

theorem length_encode (e : predExp) : e.encode.length = e.marshaledSize := by
  cases e <;>
    simp [predExp.encode, predExp.marshal, predExp.marshaledSize,
      predExpAnd.marshal, predExpOr.marshal, predExpNot.marshal, predExpIntegerValue.marshal,
      predExpStringValue.marshal, predExpGeoJSONValue.marshal, predExpBin.marshal,
      predExpMD.marshal, predExpCompare.marshal, predExpStringRegex.marshal,
      predExpAnd.marshaledSize, predExpOr.marshaledSize, predExpNot.marshaledSize,
      predExpIntegerValue.marshaledSize,
      predExpStringValue.marshaledSize, predExpGeoJSONValue.marshaledSize, predExpBin.marshaledSize,
      predExpMD.marshaledSize, predExpCompare.marshaledSize, predExpStringRegex.marshaledSize,
      predExpBase.marshaledSize,
      predExpBase.marshalTL, baseCommand.writer, baseCommand.WriteByte,
      baseCommand.WriteUint16, baseCommand.WriteUint32, baseCommand.WriteInt64,
      baseCommand.WriteString, putUint16, putUint32, putUint64] <;> omega


theorem decodeTL_put (tag len : Nat) (rest : List Byte) :
    decodeTL (putUint16 tag ++ (putUint32 len ++ rest)) =
      some (tag % 65536, len % 4294967296) := by
  have h16 := beUint_putUint16 tag
  have h32 := beUint_putUint32 len
  simp only [putUint16, putUint32] at h16 h32
  simp [decodeTL, putUint16, putUint32, h16, h32]

theorem drop_put (tag len : Nat) (rest : List Byte) :
    (putUint16 tag ++ (putUint32 len ++ rest)).drop 6 = rest := by
  simp [putUint16, putUint32]

/-- The header of every encoding reads back as the tag modulo `2^16` and the
payload length modulo `2^32`. -/
theorem decodeTL_encode (e : predExp) :
    decodeTL e.encode = some (e.kind % 65536, e.payload.length % 4294967296) := by
  rw [encode_eq e, decodeTL_put]
  simp

/-- The tag of a node returned by a public constructor fits in 16 bits. -/
theorem Constructor.kind_lt (c : Constructor) : c.node.kind < 65536 := by
  cases c <;> exact Nat.le_of_ble_eq_true rfl

theorem payload_stringValue (s : GoString) :
    (predExp.StringValue (NewPredExpStringValue s)).payload = s := by
  simp [predExp.payload, predExp.encode, predExp.marshal, predExpStringValue.marshal,
    predExpBase.marshalTL, baseCommand.writer, baseCommand.WriteUint16,
    baseCommand.WriteUint32, baseCommand.WriteString, NewPredExpStringValue,
    putUint16, putUint32]

theorem marshalAll_eq (es : List predExp) (cmd : baseCommand) :
    marshalAll baseCommand.writer es cmd =
      ⟨cmd.dataBuffer ++ (es.map predExp.encode).flatten⟩ := by
  induction es generalizing cmd with
  | nil => simp [marshalAll]
  | cons e es ih => simp [marshalAll, marshal_eq, ih]

theorem bigEndian_two (n : Nat) : bigEndian 2 n = putUint16 n := rfl

theorem bigEndian_four (n : Nat) : bigEndian 4 n = putUint32 n := by
  simp [bigEndian, putUint32, Nat.div_div_eq_div_mul]

theorem bigEndian_eight (n : Nat) : bigEndian 8 n = putUint64 n := by
  simp [bigEndian, putUint64, Nat.div_div_eq_div_mul]

/-- The bytes that follow the header in a node's encoding are the payload the
spec defines from the node's fields. -/
theorem payload_eq_specPayload (e : predExp) : e.payload = e.specPayload := by
  cases e with
  | And e => exact (bigEndian_two _).symm
  | Or e => exact (bigEndian_two _).symm
  | Not e => rfl
  | IntegerValue e => exact (bigEndian_eight _).symm
  | StringValue e => exact payload_stringValue e.val
  | GeoJSONValue e =>
    simp [predExp.payload, predExp.specPayload, predExp.encode, predExp.marshal,
      predExpGeoJSONValue.marshal, predExpBase.marshalTL, baseCommand.writer,
      baseCommand.WriteUint16, baseCommand.WriteUint32, baseCommand.WriteByte,
      baseCommand.WriteString, putUint16, putUint32, bigEndian]
    rfl
  | Bin e =>
    simp [predExp.payload, predExp.specPayload, predExp.encode, predExp.marshal,
      predExpBin.marshal, predExpBase.marshalTL, baseCommand.writer,
      baseCommand.WriteUint16, baseCommand.WriteUint32, baseCommand.WriteByte,
      baseCommand.WriteString, putUint16, putUint32]
  | MD e => rfl
  | Compare e => rfl
  | StringRegex e => exact (bigEndian_four _).symm

/-- One node at the front of the input parses to its own tag and to the length
and bytes of the payload its fields define, and leaves the rest of the input. -/
theorem parseNode_encode (e : predExp) (rest : List Byte) (hk : e.kind < 65536)
    (hp : e.specPayload.length < 4294967296) :
    parseNode (e.encode ++ rest) = some (e.toTLV, rest) := by
  have hd : decodeTL (e.encode ++ rest) = some (e.kind, e.specPayload.length) := by
    rw [encode_eq e, payload_eq_specPayload]
    simp only [List.append_assoc]
    rw [decodeTL_put, Nat.mod_eq_of_lt hk, Nat.mod_mod, Nat.mod_eq_of_lt hp]
  have hr : (e.encode ++ rest).drop 6 = e.specPayload ++ rest := by
    rw [encode_eq e, payload_eq_specPayload]
    simp only [List.append_assoc]
    rw [drop_put]
  simp [parseNode, hd, hr, predExp.toTLV]

theorem parseStreamAux_encode (es : List predExp)
    (h : ∀ e ∈ es, e.kind < 65536 ∧ e.specPayload.length < 4294967296) (fuel : Nat)
    (hf : (es.map predExp.encode).flatten.length ≤ fuel) :
    parseStreamAux fuel (es.map predExp.encode).flatten = some (es.map predExp.toTLV) := by
  induction es generalizing fuel with
  | nil => cases fuel <;> simp [parseStreamAux]
  | cons e es ih =>
    have he := h e (List.mem_cons_self _ _)
    have hlen : 6 ≤ e.encode.length := by
      rw [encode_eq e]; simp; omega
    simp only [List.map_cons, List.flatten_cons, List.length_append] at hf ⊢
    obtain ⟨f, rfl⟩ : ∃ f, fuel = f + 1 := ⟨fuel - 1, by omega⟩
    have hpn := parseNode_encode e (es.map predExp.encode).flatten he.1 he.2
    have ih2 := ih (fun x hx => h x (List.mem_cons_of_mem _ hx)) f (by omega)
    cases hc : e.encode ++ (es.map predExp.encode).flatten with
    | nil =>
      have := congrArg List.length hc
      simp only [List.length_append, List.length_nil] at this
      omega
    | cons b bs =>
      rw [hc] at hpn
      simp only [parseStreamAux, hpn, ih2]

/-- C1: for every node returned by a public constructor, whatever its arguments
and whatever the buffer already holds, `marshal` reports no error and appends to
the buffer exactly `marshaledSize()` bytes: the old content stays in front, the
buffer grows by `marshaledSize()` bytes, and that number is the 6 header bytes
plus the payload bytes. -/
theorem marshaledSize_eq_bytes_written (c : Constructor) (cmd : baseCommand) :
    (c.node.marshal baseCommand.writer cmd).2 = none ∧
    (c.node.marshal baseCommand.writer cmd).1.dataBuffer.take cmd.dataBuffer.length
      = cmd.dataBuffer ∧
    (c.node.marshal baseCommand.writer cmd).1.dataBuffer.length
      = cmd.dataBuffer.length + c.node.marshaledSize ∧
    c.node.marshaledSize = 6 + c.node.payload.length := by
  have hl := length_encode c.node
  refine ⟨by rw [marshal_eq], by rw [marshal_eq]; simp, by rw [marshal_eq]; simp [hl], ?_⟩
  rw [← hl, encode_eq c.node]
  simp
  omega

/-- C2, as stated, fails: the string value node of a string of `2^32` zero
bytes is encoded with a header whose length field reads back as 0, while
`2^32` payload bytes follow the header. -/
theorem header_len_wraps_at_two_pow_32 :
    decodeTL (Constructor.StringValue (List.replicate 4294967296 0)).node.encode
      = some (11, 0) ∧
    (Constructor.StringValue (List.replicate 4294967296 0)).node.payload.length
      = 4294967296 ∧
    decodeTL (Constructor.StringValue (List.replicate 4294967296 0)).node.encode
      ≠ some ((Constructor.StringValue (List.replicate 4294967296 0)).node.kind,
          (Constructor.StringValue (List.replicate 4294967296 0)).node.payload.length) := by
  have hp : (Constructor.StringValue (List.replicate 4294967296 0)).node.payload.length
      = 4294967296 := by
    show (predExp.StringValue (NewPredExpStringValue _)).payload.length = _
    rw [payload_stringValue]
    exact List.length_replicate _ _
  have hd : decodeTL (Constructor.StringValue (List.replicate 4294967296 0)).node.encode
      = some (11, 0) := by
    rw [decodeTL_encode, hp]
    rfl
  refine ⟨hd, hp, ?_⟩
  rw [hd, hp]
  decide

/-- C2, amended: for every node, returned by a public constructor or not
(its tag a 16-bit value, as the Go type of the field says), whose payload is
shorter than `2^32` bytes, the first six bytes that `marshal` appends to a
buffer read back (16-bit tag, then 32-bit length) as the node's exact tag and
the number of payload bytes that follow the header. -/
theorem header_roundtrip (e : predExp) (cmd : baseCommand) (hk : e.kind < 65536)
    (hp : e.payload.length < 4294967296) :
    decodeTL ((e.marshal baseCommand.writer cmd).1.dataBuffer.drop
        cmd.dataBuffer.length)
      = some (e.kind, e.payload.length) ∧
    ((e.marshal baseCommand.writer cmd).1.dataBuffer.drop
        (cmd.dataBuffer.length + 6)).length = e.payload.length := by
  have h1 : (e.marshal baseCommand.writer cmd).1.dataBuffer.drop
      cmd.dataBuffer.length = e.encode := by
    rw [marshal_eq]; simp
  have h2 : (e.marshal baseCommand.writer cmd).1.dataBuffer.drop
      (cmd.dataBuffer.length + 6) = e.payload := by
    rw [← List.drop_drop, h1]; rfl
  rw [h1, h2, decodeTL_encode, Nat.mod_eq_of_lt hk, Nat.mod_eq_of_lt hp]
  exact ⟨rfl, rfl⟩

/-- Witness of `header_roundtrip`: the string value node of "abc" written into
an empty buffer, and a comparison node of tag 212, which no public constructor
returns, written behind one byte. -/
theorem header_roundtrip_witness :
    ((predExp.StringValue (NewPredExpStringValue [97, 98, 99])).kind < 65536 ∧
      (predExp.StringValue (NewPredExpStringValue [97, 98, 99])).payload.length
        < 4294967296 ∧
      decodeTL (((predExp.StringValue (NewPredExpStringValue [97, 98, 99])).marshal
        baseCommand.writer ⟨[]⟩).1.dataBuffer.drop (baseCommand.mk []).dataBuffer.length)
        = some (11, 3)) ∧
    ((predExp.Compare { tag := 212 }).kind < 65536 ∧
      (predExp.Compare { tag := 212 }).payload.length < 4294967296 ∧
      decodeTL (((predExp.Compare { tag := 212 }).marshal
        baseCommand.writer ⟨[7]⟩).1.dataBuffer.drop (baseCommand.mk [7]).dataBuffer.length)
        = some (212, 0)) :=
  ⟨⟨by decide, by decide,
      (header_roundtrip (predExp.StringValue (NewPredExpStringValue [97, 98, 99])) ⟨[]⟩
        (by decide) (by decide)).1⟩,
    ⟨by decide, by decide,
      (header_roundtrip (predExp.Compare { tag := 212 }) ⟨[7]⟩ (by decide) (by decide)).1⟩⟩

/-- C3: for every list of nodes returned by public constructors whose payloads
are each shorter than `2^32` bytes, marshalling the nodes in order into an empty
buffer gives a byte stream that the grammar `stream := node*`,
`node := tag:uint16 | len:uint32 | payload:byte[len]` parses, with no byte left
over, into one triple per node in the same order, each triple being that node's
own tag and the length and bytes of the payload that the node's fields define
(`predExp.specPayload`, which does not refer to `marshal`). -/
theorem stream_parses_back (cs : List Constructor)
    (hp : ∀ c ∈ cs, c.node.specPayload.length < 4294967296) :
    parseStream (marshalAll baseCommand.writer (cs.map Constructor.node) ⟨[]⟩).dataBuffer
      = some ((cs.map Constructor.node).map predExp.toTLV) := by
  rw [marshalAll_eq]
  simp only [List.nil_append, parseStream]
  apply parseStreamAux_encode _ _ _ (Nat.le_refl _)
  intro e he
  obtain ⟨c, hc, rfl⟩ := List.mem_map.1 he
  exact ⟨Constructor.kind_lt c, hp c hc⟩

/-- Witness of `stream_parses_back`: the stream `age`, `42`, `=`, "abc" of an
integer bin, an integer value, the integer comparison and a string value. -/
theorem stream_parses_back_witness :
    (∀ c ∈ [Constructor.IntegerBin [97, 103, 101], Constructor.IntegerValue 42,
        Constructor.IntegerEqual, Constructor.StringValue [97, 98, 99]],
      c.node.specPayload.length < 4294967296) ∧
    parseStream (marshalAll baseCommand.writer
        ([Constructor.IntegerBin [97, 103, 101], Constructor.IntegerValue 42,
          Constructor.IntegerEqual, Constructor.StringValue [97, 98, 99]].map
            Constructor.node) ⟨[]⟩).dataBuffer
      = some [⟨100, 4, [3, 97, 103, 101]⟩, ⟨10, 8, [0, 0, 0, 0, 0, 0, 0, 42]⟩,
          ⟨200, 0, []⟩, ⟨11, 3, [97, 98, 99]⟩] :=
  ⟨by decide, stream_parses_back _ (by decide)⟩

/-- C4: for every 64-bit signed integer `v` and every buffer,
`NewPredExpIntegerValue(v).marshal` reports no error and appends exactly 14
bytes: the header bytes of tag 10 and len 8, then 8 payload bytes that are the
big-endian two's-complement encoding of `v` (read most significant byte first
they give `v mod 2^64`, whose signed reading is `v`); and `marshaledSize()`
is 14. -/
theorem integerValue_marshal (v : Int) (hlo : -9223372036854775808 ≤ v)
    (hhi : v < 9223372036854775808) (cmd : baseCommand) :
    ∃ p : List Byte,
      (NewPredExpIntegerValue v).marshal baseCommand.writer cmd
        = (⟨cmd.dataBuffer ++ ([0, 10, 0, 0, 0, 8] ++ p)⟩, none) ∧
      Framed ([0, 10, 0, 0, 0, 8] ++ p) 10 8 p ∧
      p.length = 8 ∧ ([0, 10, 0, 0, 0, 8] ++ p).length = 14 ∧
      beUint p = (v % 18446744073709551616).toNat ∧ toInt64 (beUint p) = v ∧
      (NewPredExpIntegerValue v).marshaledSize = 14 := by
  refine ⟨putUint64 (v % 18446744073709551616).toNat, ?_, ?_, rfl, rfl, ?_, ?_, rfl⟩
  · simp [predExpIntegerValue.marshal, predExpBase.marshalTL, baseCommand.writer,
      baseCommand.WriteUint16, baseCommand.WriteUint32, baseCommand.WriteInt64,
      NewPredExpIntegerValue, _AS_PREDEXP_INTEGER_VALUE]
    rfl
  · exact ⟨rfl, rfl⟩
  · rw [beUint_putUint64]
    omega
  · rw [beUint_putUint64]
    have h : (v % 18446744073709551616).toNat % 18446744073709551616
        = (v % 18446744073709551616).toNat := by omega
    rw [h]
    exact toInt64_emod v hlo hhi

/-- Witness of `integerValue_marshal`: `v = 42` into an empty buffer gives
the 14 bytes `0 10, 0 0 0 8, 0 0 0 0 0 0 0 42`. -/
theorem integerValue_marshal_witness :
    ((-9223372036854775808 : Int) ≤ 42 ∧ (42 : Int) < 9223372036854775808) ∧
    (NewPredExpIntegerValue 42).marshal baseCommand.writer ⟨[]⟩
      = (⟨[0, 10, 0, 0, 0, 8, 0, 0, 0, 0, 0, 0, 0, 42]⟩, none) ∧
    ∃ p : List Byte,
      (NewPredExpIntegerValue 42).marshal baseCommand.writer ⟨[]⟩
        = (⟨[] ++ ([0, 10, 0, 0, 0, 8] ++ p)⟩, none) ∧
      Framed ([0, 10, 0, 0, 0, 8] ++ p) 10 8 p ∧
      p.length = 8 ∧ ([0, 10, 0, 0, 0, 8] ++ p).length = 14 ∧
      beUint p = ((42 : Int) % 18446744073709551616).toNat ∧ toInt64 (beUint p) = 42 ∧
      (NewPredExpIntegerValue 42).marshaledSize = 14 :=
  ⟨by decide, by decide, integerValue_marshal 42 (by decide) (by decide) ⟨[]⟩⟩

/-- C5: for every string `s` of fewer than `2^32` bytes and every buffer,
`NewPredExpStringValue(s).marshal` reports no error and appends a header that
reads back as tag 11 and len `byteLength(s)`, followed by exactly the raw bytes
of `s`, with no length prefix and no terminating null (the bytes after the
header are `s` and nothing else); and `marshaledSize()` is
`6 + byteLength(s)`. -/
theorem stringValue_marshal (s : GoString) (hs : s.length < 4294967296)
    (cmd : baseCommand) :
    ∃ out : List Byte,
      (NewPredExpStringValue s).marshal baseCommand.writer cmd
        = (⟨cmd.dataBuffer ++ out⟩, none) ∧
      Framed out 11 s.length s ∧ out.length = 6 + s.length ∧
      (NewPredExpStringValue s).marshaledSize = 6 + s.length := by
  refine ⟨putUint16 11 ++ (putUint32 (s.length % 4294967296) ++ s), ?_, ⟨?_, ?_⟩, ?_, ?_⟩
  · simp [predExpStringValue.marshal, predExpBase.marshalTL, baseCommand.writer,
      baseCommand.WriteUint16, baseCommand.WriteUint32, baseCommand.WriteString,
      NewPredExpStringValue, _AS_PREDEXP_STRING_VALUE]
  · rw [decodeTL_put, Nat.mod_mod, Nat.mod_eq_of_lt hs]
  · rw [drop_put]
  · simp; omega
  · simp [predExpStringValue.marshaledSize, predExpBase.marshaledSize, NewPredExpStringValue]

/-- Witness of `stringValue_marshal`: `s = "abc"` into an empty buffer gives
tag 11, len 3 and the payload `a`, `b`, `c`. -/
theorem stringValue_marshal_witness :
    ([97, 98, 99] : GoString).length < 4294967296 ∧
    (NewPredExpStringValue [97, 98, 99]).marshal baseCommand.writer ⟨[]⟩
      = (⟨[0, 11, 0, 0, 0, 3, 97, 98, 99]⟩, none) ∧
    ∃ out : List Byte,
      (NewPredExpStringValue [97, 98, 99]).marshal baseCommand.writer ⟨[]⟩
        = (⟨[] ++ out⟩, none) ∧
      Framed out 11 3 [97, 98, 99] ∧ out.length = 6 + 3 ∧
      (NewPredExpStringValue [97, 98, 99]).marshaledSize = 6 + 3 :=
  ⟨by decide, by decide, stringValue_marshal [97, 98, 99] (by decide) ⟨[]⟩⟩

theorem bin_marshal_bytes (e : predExpBin) (cmd : baseCommand) :
    e.marshal baseCommand.writer cmd =
      (⟨cmd.dataBuffer ++ (putUint16 e.tag ++
        (putUint32 ((1 + e.name.length) % 4294967296) ++ byte e.name.length :: e.name))⟩,
        none) := by
  simp [predExpBin.marshal, predExpBase.marshalTL, baseCommand.writer,
    baseCommand.WriteUint16, baseCommand.WriteUint32, baseCommand.WriteByte,
    baseCommand.WriteString]

theorem HeaderOnly.of_encode (e : predExp) (tag : Nat) (hs : e.marshaledSize = 6)
    (hl : e.encode.length = 6) (hf : Framed e.encode tag 0 []) : HeaderOnly e tag :=
  ⟨hs, fun cmd => ⟨e.encode, marshal_eq e cmd, hl, hf⟩⟩

/-- C6: for every name of at most 255 bytes and every buffer,
`NewPredExpIntegerBin(name)`, `NewPredExpStringBin(name)` and
`NewPredExpGeoJSONBin(name)` marshal, with no error, to a header that reads back
as tag 100, 101 and 102 respectively with len `1 + byteLength(name)`, followed
by a payload of one byte holding `byteLength(name)` and then the raw name bytes;
and `marshaledSize()` is `6 + 1 + byteLength(name)`. -/
theorem bin_marshal (name : GoString) (hn : name.length ≤ 255) (cmd : baseCommand) :
    ∃ (b : Byte) (o1 o2 o3 : List Byte),
      b.val = name.length ∧
      (NewPredExpIntegerBin name).marshal baseCommand.writer cmd
        = (⟨cmd.dataBuffer ++ o1⟩, none) ∧
      Framed o1 100 (1 + name.length) (b :: name) ∧
      (NewPredExpStringBin name).marshal baseCommand.writer cmd
        = (⟨cmd.dataBuffer ++ o2⟩, none) ∧
      Framed o2 101 (1 + name.length) (b :: name) ∧
      (NewPredExpGeoJSONBin name).marshal baseCommand.writer cmd
        = (⟨cmd.dataBuffer ++ o3⟩, none) ∧
      Framed o3 102 (1 + name.length) (b :: name) ∧
      (NewPredExpIntegerBin name).marshaledSize = 6 + 1 + name.length ∧
      (NewPredExpStringBin name).marshaledSize = 6 + 1 + name.length ∧
      (NewPredExpGeoJSONBin name).marshaledSize = 6 + 1 + name.length := by
  have hb : (byte name.length).val = name.length := by
    simp only [byte_val]; omega
  have hl : (1 + name.length) % 4294967296 % 4294967296 = 1 + name.length := by omega
  have hframe : ∀ tag, tag < 65536 →
      Framed (putUint16 tag ++ (putUint32 ((1 + name.length) % 4294967296) ++
        byte name.length :: name)) tag (1 + name.length) (byte name.length :: name) := by
    intro tag ht
    exact ⟨by rw [decodeTL_put, Nat.mod_eq_of_lt ht, hl], drop_put _ _ _⟩
  refine ⟨byte name.length, _, _, _, hb,
    bin_marshal_bytes _ cmd, hframe 100 (by decide),
    bin_marshal_bytes _ cmd, hframe 101 (by decide),
    bin_marshal_bytes _ cmd, hframe 102 (by decide), ?_, ?_, ?_⟩ <;>
  simp [predExpBin.marshaledSize, predExpBase.marshaledSize, NewPredExpIntegerBin,
    NewPredExpStringBin, NewPredExpGeoJSONBin]

/-- Witness of `bin_marshal`: `NewPredExpIntegerBin("age")` into an empty
buffer gives tag 100, len 4 and the payload `3, a, g, e`. -/
theorem bin_marshal_witness :
    ([97, 103, 101] : GoString).length ≤ 255 ∧
    (NewPredExpIntegerBin [97, 103, 101]).marshal baseCommand.writer ⟨[]⟩
      = (⟨[0, 100, 0, 0, 0, 4, 3, 97, 103, 101]⟩, none) ∧
    Framed [0, 100, 0, 0, 0, 4, 3, 97, 103, 101] 100 4 [3, 97, 103, 101] ∧
    ∃ (b : Byte) (o1 o2 o3 : List Byte),
      b.val = 3 ∧
      (NewPredExpIntegerBin [97, 103, 101]).marshal baseCommand.writer ⟨[]⟩
        = (⟨[] ++ o1⟩, none) ∧
      Framed o1 100 (1 + 3) [b, 97, 103, 101] ∧
      (NewPredExpStringBin [97, 103, 101]).marshal baseCommand.writer ⟨[]⟩
        = (⟨[] ++ o2⟩, none) ∧
      Framed o2 101 (1 + 3) [b, 97, 103, 101] ∧
      (NewPredExpGeoJSONBin [97, 103, 101]).marshal baseCommand.writer ⟨[]⟩
        = (⟨[] ++ o3⟩, none) ∧
      Framed o3 102 (1 + 3) [b, 97, 103, 101] ∧
      (NewPredExpIntegerBin [97, 103, 101]).marshaledSize = 6 + 1 + 3 ∧
      (NewPredExpStringBin [97, 103, 101]).marshaledSize = 6 + 1 + 3 ∧
      (NewPredExpGeoJSONBin [97, 103, 101]).marshaledSize = 6 + 1 + 3 :=
  ⟨by decide, by decide, by decide, bin_marshal [97, 103, 101] (by decide) ⟨[]⟩⟩

/-- C7: for every 16-bit child count `n` and every buffer, `NewPredExpAnd(n)`
marshals, with no error, to the header bytes of tag 1 and len 2 followed by the
2-byte encoding of `n`, and `NewPredExpOr(n)` to the header bytes of tag 2 and
len 2 followed by the same 2 bytes; both have `marshaledSize() == 8`; and
neither looks at the nodes that follow: whatever nodes are marshalled after it,
and however many, the stream holds the same 8 bytes for the node and then the
encodings of those nodes. -/
theorem and_or_marshal (n : Nat) (hn : n < 65536) (cmd : baseCommand) :
    ∃ p : List Byte,
      p.length = 2 ∧ beUint p = n ∧
      (NewPredExpAnd n).marshal baseCommand.writer cmd
        = (⟨cmd.dataBuffer ++ ([0, 1, 0, 0, 0, 2] ++ p)⟩, none) ∧
      Framed ([0, 1, 0, 0, 0, 2] ++ p) 1 2 p ∧
      (NewPredExpOr n).marshal baseCommand.writer cmd
        = (⟨cmd.dataBuffer ++ ([0, 2, 0, 0, 0, 2] ++ p)⟩, none) ∧
      Framed ([0, 2, 0, 0, 0, 2] ++ p) 2 2 p ∧
      (NewPredExpAnd n).marshaledSize = 8 ∧ (NewPredExpOr n).marshaledSize = 8 ∧
      (∀ es : List predExp,
        (marshalAll baseCommand.writer (predExp.And (NewPredExpAnd n) :: es) cmd).dataBuffer
          = cmd.dataBuffer ++ ([0, 1, 0, 0, 0, 2] ++ p) ++ (es.map predExp.encode).flatten ∧
        (marshalAll baseCommand.writer (predExp.Or (NewPredExpOr n) :: es) cmd).dataBuffer
          = cmd.dataBuffer ++ ([0, 2, 0, 0, 0, 2] ++ p) ++ (es.map predExp.encode).flatten) := by
  have hand : (NewPredExpAnd n).marshal baseCommand.writer cmd
      = (⟨cmd.dataBuffer ++ ([0, 1, 0, 0, 0, 2] ++ putUint16 n)⟩, none) := by
    simp [predExpAnd.marshal, predExpBase.marshalTL, baseCommand.writer,
      baseCommand.WriteUint16, baseCommand.WriteUint32, NewPredExpAnd, _AS_PREDEXP_AND]
    rfl
  have hor : (NewPredExpOr n).marshal baseCommand.writer cmd
      = (⟨cmd.dataBuffer ++ ([0, 2, 0, 0, 0, 2] ++ putUint16 n)⟩, none) := by
    simp [predExpOr.marshal, predExpBase.marshalTL, baseCommand.writer,
      baseCommand.WriteUint16, baseCommand.WriteUint32, NewPredExpOr, _AS_PREDEXP_OR]
    rfl
  refine ⟨putUint16 n, rfl, ?_, hand, ⟨rfl, rfl⟩, hor, ⟨rfl, rfl⟩, rfl, rfl, ?_⟩
  · rw [beUint_putUint16, Nat.mod_eq_of_lt hn]
  · intro es
    constructor
    · show (marshalAll baseCommand.writer es
        ((NewPredExpAnd n).marshal baseCommand.writer cmd).1).dataBuffer = _
      rw [hand, marshalAll_eq]
    · show (marshalAll baseCommand.writer es
        ((NewPredExpOr n).marshal baseCommand.writer cmd).1).dataBuffer = _
      rw [hor, marshalAll_eq]

/-- Witness of `and_or_marshal`: `And(2)` into an empty buffer gives tag 1,
len 2 and the payload `0 2`, also when no node follows it. -/
theorem and_or_marshal_witness :
    (2 : Nat) < 65536 ∧
    (NewPredExpAnd 2).marshal baseCommand.writer ⟨[]⟩
      = (⟨[0, 1, 0, 0, 0, 2, 0, 2]⟩, none) ∧
    ∃ p : List Byte,
      p.length = 2 ∧ beUint p = 2 ∧
      (NewPredExpAnd 2).marshal baseCommand.writer ⟨[]⟩
        = (⟨[] ++ ([0, 1, 0, 0, 0, 2] ++ p)⟩, none) ∧
      Framed ([0, 1, 0, 0, 0, 2] ++ p) 1 2 p ∧
      (NewPredExpOr 2).marshal baseCommand.writer ⟨[]⟩
        = (⟨[] ++ ([0, 2, 0, 0, 0, 2] ++ p)⟩, none) ∧
      Framed ([0, 2, 0, 0, 0, 2] ++ p) 2 2 p ∧
      (NewPredExpAnd 2).marshaledSize = 8 ∧ (NewPredExpOr 2).marshaledSize = 8 ∧
      (∀ es : List predExp,
        (marshalAll baseCommand.writer (predExp.And (NewPredExpAnd 2) :: es) ⟨[]⟩).dataBuffer
          = [] ++ ([0, 1, 0, 0, 0, 2] ++ p) ++ (es.map predExp.encode).flatten ∧
        (marshalAll baseCommand.writer (predExp.Or (NewPredExpOr 2) :: es) ⟨[]⟩).dataBuffer
          = [] ++ ([0, 2, 0, 0, 0, 2] ++ p) ++ (es.map predExp.encode).flatten) :=
  ⟨by decide, by decide, and_or_marshal 2 (by decide) ⟨[]⟩⟩

/-- C8: for every string `s` with `3 + byteLength(s)` below `2^32` and every
buffer, `NewPredExpGeoJSONValue(s).marshal` reports no error and appends a
header that reads back as tag 12 and len `3 + byteLength(s)`, then one flag
byte 0, the two bytes 0 0 of a zero cell count, then the raw bytes of `s`; and
`marshaledSize()` is `6 + 1 + 2 + byteLength(s)`. -/
theorem geoJSONValue_marshal (s : GoString) (hs : 3 + s.length < 4294967296)
    (cmd : baseCommand) :
    ∃ (out cells : List Byte),
      (NewPredExpGeoJSONValue s).marshal baseCommand.writer cmd
        = (⟨cmd.dataBuffer ++ out⟩, none) ∧
      cells.length = 2 ∧ beUint cells = 0 ∧
      Framed out 12 (3 + s.length) ([0] ++ cells ++ s) ∧
      out.length = 6 + 1 + 2 + s.length ∧
      (NewPredExpGeoJSONValue s).marshaledSize = 6 + 1 + 2 + s.length := by
  refine ⟨putUint16 12 ++ (putUint32 ((1 + 2 + s.length) % 4294967296) ++
    ([0] ++ putUint16 0 ++ s)), putUint16 0, ?_, rfl, rfl, ⟨?_, ?_⟩, ?_, ?_⟩
  · simp [predExpGeoJSONValue.marshal, predExpBase.marshalTL, baseCommand.writer,
      baseCommand.WriteUint16, baseCommand.WriteUint32, baseCommand.WriteByte,
      baseCommand.WriteString, NewPredExpGeoJSONValue, _AS_PREDEXP_GEOJSON_VALUE]
    rfl
  · rw [decodeTL_put]
    have h : (1 + 2 + s.length) % 4294967296 % 4294967296 = 3 + s.length := by omega
    rw [h]
  · rw [drop_put]
  · simp; omega
  · simp [predExpGeoJSONValue.marshaledSize, predExpBase.marshaledSize,
      NewPredExpGeoJSONValue]

/-- Witness of `geoJSONValue_marshal`: the two-byte text `{}` into an empty
buffer. -/
theorem geoJSONValue_marshal_witness :
    3 + ([123, 125] : GoString).length < 4294967296 ∧
    (NewPredExpGeoJSONValue [123, 125]).marshal baseCommand.writer ⟨[]⟩
      = (⟨[0, 12, 0, 0, 0, 5, 0, 0, 0, 123, 125]⟩, none) ∧
    ∃ (out cells : List Byte),
      (NewPredExpGeoJSONValue [123, 125]).marshal baseCommand.writer ⟨[]⟩
        = (⟨[] ++ out⟩, none) ∧
      cells.length = 2 ∧ beUint cells = 0 ∧
      Framed out 12 (3 + 2) ([0] ++ cells ++ [123, 125]) ∧
      out.length = 6 + 1 + 2 + 2 ∧
      (NewPredExpGeoJSONValue [123, 125]).marshaledSize = 6 + 1 + 2 + 2 :=
  ⟨by decide, by decide, geoJSONValue_marshal [123, 125] (by decide) ⟨[]⟩⟩

/-- C9: for every 32-bit flags value `f` and every buffer,
`NewPredExpStringRegex(f).marshal` reports no error and appends the header
bytes of tag 212 (STRING_REGEX) and len 4, then 4 bytes that read back as `f`
itself, every bit kept; and `marshaledSize()` is 10. -/
theorem stringRegex_marshal (f : Nat) (hf : f < 4294967296) (cmd : baseCommand) :
    ∃ p : List Byte,
      p.length = 4 ∧ beUint p = f ∧
      (NewPredExpStringRegex f).marshal baseCommand.writer cmd
        = (⟨cmd.dataBuffer ++ ([0, 212, 0, 0, 0, 4] ++ p)⟩, none) ∧
      Framed ([0, 212, 0, 0, 0, 4] ++ p) _AS_PREDEXP_STRING_REGEX 4 p ∧
      _AS_PREDEXP_STRING_REGEX = 212 ∧
      (NewPredExpStringRegex f).marshaledSize = 10 := by
  refine ⟨putUint32 f, rfl, ?_, ?_, ⟨rfl, rfl⟩, rfl, rfl⟩
  · rw [beUint_putUint32, Nat.mod_eq_of_lt hf]
  · simp [predExpStringRegex.marshal, predExpBase.marshalTL, baseCommand.writer,
      baseCommand.WriteUint16, baseCommand.WriteUint32, NewPredExpStringRegex,
      _AS_PREDEXP_STRING_REGEX]
    rfl

/-- Witness of `stringRegex_marshal`: the flags value with all 32 bits set
into an empty buffer gives four bytes 255. -/
theorem stringRegex_marshal_witness :
    (4294967295 : Nat) < 4294967296 ∧
    (NewPredExpStringRegex 4294967295).marshal baseCommand.writer ⟨[]⟩
      = (⟨[0, 212, 0, 0, 0, 4, 255, 255, 255, 255]⟩, none) ∧
    ∃ p : List Byte,
      p.length = 4 ∧ beUint p = 4294967295 ∧
      (NewPredExpStringRegex 4294967295).marshal baseCommand.writer ⟨[]⟩
        = (⟨[] ++ ([0, 212, 0, 0, 0, 4] ++ p)⟩, none) ∧
      Framed ([0, 212, 0, 0, 0, 4] ++ p) _AS_PREDEXP_STRING_REGEX 4 p ∧
      _AS_PREDEXP_STRING_REGEX = 212 ∧
      (NewPredExpStringRegex 4294967295).marshaledSize = 10 :=
  ⟨by decide, by decide, stringRegex_marshal 4294967295 (by decide) ⟨[]⟩⟩

/-- C10: each of the fourteen zero-payload constructors marshals to exactly the
6-byte header with len 0 and its registry tag, and has `marshaledSize() == 6`:
Not=3, RecSize=150, LastUpdate=151, VoidTime=152, IntegerEqual=200,
IntegerUnequal=201, IntegerGreater=202, IntegerGreaterEq=203, IntegerLess=204,
IntegerLessEq=205, StringEqual=210, StringUnequal=211, GeoJSONWithin=220,
GeoJSONContains=221. -/
theorem zero_payload_marshal :
    HeaderOnly (.Not NewPredExpNot) 3 ∧
    HeaderOnly (.MD NewPredExpRecSize) 150 ∧
    HeaderOnly (.MD NewPredExpLastUpdate) 151 ∧
    HeaderOnly (.MD NewPredExpVoidTime) 152 ∧
    HeaderOnly (.Compare NewPredExpIntegerEqual) 200 ∧
    HeaderOnly (.Compare NewPredExpIntegerUnequal) 201 ∧
    HeaderOnly (.Compare NewPredExpIntegerGreater) 202 ∧
    HeaderOnly (.Compare NewPredExpIntegerGreaterEq) 203 ∧
    HeaderOnly (.Compare NewPredExpIntegerLess) 204 ∧
    HeaderOnly (.Compare NewPredExpIntegerLessEq) 205 ∧
    HeaderOnly (.Compare NewPredExpStringEqual) 210 ∧
    HeaderOnly (.Compare NewPredExpStringUnequal) 211 ∧
    HeaderOnly (.Compare NewPredExpGeoJSONWithin) 220 ∧
    HeaderOnly (.Compare NewPredExpGeoJSONContains) 221 := by
  refine ⟨?_, ?_, ?_, ?_, ?_, ?_, ?_, ?_, ?_, ?_, ?_, ?_, ?_, ?_⟩ <;>
    exact HeaderOnly.of_encode _ _ rfl rfl (by decide)

/-- C11, as stated, fails: `marshal` on the node of `NewPredExpUnknownBin("a")`
writes the sentinel tag 65535 into an empty buffer (header bytes 255 255) and
returns nil. -/
theorem unknownBin_sentinel_written :
    (NewPredExpUnknownBin [97]).marshal baseCommand.writer ⟨[]⟩
      = (⟨[255, 255, 0, 0, 0, 2, 1, 97]⟩, none) ∧
    decodeTL [255, 255, 0, 0, 0, 2, 1, 97] = some (65535, 2) := by
  decide

/-- C11, amended: the encoder has no guard for the unknown-bin node. For every
name and every buffer, `marshal` on the node of `NewPredExpUnknownBin(name)`
returns nil and appends, like for any other bin, a header whose tag reads back
as the sentinel 65535 and whose len is `1 + byteLength(name)` modulo `2^32`,
followed by the length byte and the name. -/
theorem unknownBin_marshal (name : GoString) (cmd : baseCommand) :
    ∃ out : List Byte,
      (NewPredExpUnknownBin name).marshal baseCommand.writer cmd
        = (⟨cmd.dataBuffer ++ out⟩, none) ∧
      Framed out 65535 ((1 + name.length) % 4294967296) (byte name.length :: name) ∧
      _AS_PREDEXP_UNKNOWN_BIN = 65535 := by
  refine ⟨_, bin_marshal_bytes _ cmd, ⟨?_, drop_put _ _ _⟩, rfl⟩
  rw [decodeTL_put, Nat.mod_mod]
  rfl

/-- C12: two nodes returned by different public constructors never share a
kind: for any two calls of different constructors among the 24, whatever the
arguments, the 16-bit tags that `marshal` writes (the tags read back from the
two headers) are the nodes' kinds and are different. -/
theorem kinds_pairwise_distinct (c₁ c₂ : Constructor) (h : c₁.index ≠ c₂.index) :
    ∃ t₁ l₁ t₂ l₂ : Nat,
      decodeTL c₁.node.encode = some (t₁, l₁) ∧ decodeTL c₂.node.encode = some (t₂, l₂) ∧
      t₁ = c₁.node.kind ∧ t₂ = c₂.node.kind ∧ t₁ ≠ t₂ := by
  have hk : c₁.node.kind ≠ c₂.node.kind := by
    cases c₁ <;> cases c₂ <;>
      first
        | exact absurd rfl h
        | exact Nat.ne_of_beq_eq_false rfl
  refine ⟨_, _, _, _, decodeTL_encode _, decodeTL_encode _, ?_, ?_, ?_⟩
  · exact Nat.mod_eq_of_lt (Constructor.kind_lt c₁)
  · exact Nat.mod_eq_of_lt (Constructor.kind_lt c₂)
  · rw [Nat.mod_eq_of_lt (Constructor.kind_lt c₁), Nat.mod_eq_of_lt (Constructor.kind_lt c₂)]
    exact hk

/-- Witness of `kinds_pairwise_distinct`: the unknown bin and the integer bin
of one name. -/
theorem kinds_pairwise_distinct_witness :
    (Constructor.UnknownBin [97]).index ≠ (Constructor.IntegerBin [97]).index ∧
    ∃ t₁ l₁ t₂ l₂ : Nat,
      decodeTL (Constructor.UnknownBin [97]).node.encode = some (t₁, l₁) ∧
      decodeTL (Constructor.IntegerBin [97]).node.encode = some (t₂, l₂) ∧
      t₁ = (Constructor.UnknownBin [97]).node.kind ∧
      t₂ = (Constructor.IntegerBin [97]).node.kind ∧ t₁ ≠ t₂ :=
  ⟨by decide, kinds_pairwise_distinct _ _ (by decide)⟩

/-- C13: the description of a metadata node names the field selected:
`NewPredExpVoidTime().String()` is "rec.Expiration",
`NewPredExpLastUpdate().String()` is "rec.LastUpdate" and
`NewPredExpRecSize().String()` is "rec.Size", so the three descriptions are
pairwise different. -/
theorem metadata_String :
    NewPredExpVoidTime.String = .ok "rec.Expiration" ∧
    NewPredExpLastUpdate.String = .ok "rec.LastUpdate" ∧
    NewPredExpRecSize.String = .ok "rec.Size" ∧
    NewPredExpVoidTime.String ≠ NewPredExpLastUpdate.String ∧
    NewPredExpVoidTime.String ≠ NewPredExpRecSize.String ∧
    NewPredExpLastUpdate.String ≠ NewPredExpRecSize.String := by
  have hv : NewPredExpVoidTime.String = .ok "rec.Expiration" := rfl
  have hl : NewPredExpLastUpdate.String = .ok "rec.LastUpdate" := rfl
  have hr : NewPredExpRecSize.String = .ok "rec.Size" := rfl
  refine ⟨hv, hl, hr, ?_, ?_, ?_⟩
  · rw [hv, hl]; intro h; exact absurd (Except.ok.inj h) (by decide)
  · rw [hv, hr]; intro h; exact absurd (Except.ok.inj h) (by decide)
  · rw [hl, hr]; intro h; exact absurd (Except.ok.inj h) (by decide)

theorem md_String_ok_of_mem (m : predExpMD) (h : m.tag ∈ [150, 151, 152]) :
    ∃ s, m.String = .ok s := by
  obtain ⟨b, tag⟩ := m
  simp only [List.mem_cons, List.mem_singleton, List.not_mem_nil, or_false] at h
  rcases h with h | h | h <;> subst h <;> exact ⟨_, rfl⟩

theorem md_String_error_of_not_mem (m : predExpMD) (h : m.tag ∉ [150, 151, 152]) :
    m.String = .error "Invalid Metadata tag." := by
  simp only [List.mem_cons, List.mem_singleton, List.not_mem_nil, or_false, not_or] at h
  obtain ⟨h1, h2, h3⟩ := h
  simp [predExpMD.String, _AS_PREDEXP_RECSIZE, _AS_PREDEXP_LAST_UPDATE,
    _AS_PREDEXP_VOID_TIME, h1, h2, h3]

theorem compare_String_ok_of_mem (c : predExpCompare)
    (h : c.tag ∈ [200, 201, 202, 203, 204, 205, 210, 211, 212, 220, 221]) :
    ∃ s, c.String = .ok s := by
  obtain ⟨b, tag⟩ := c
  simp only [List.mem_cons, List.mem_singleton, List.not_mem_nil, or_false] at h
  rcases h with h | h | h | h | h | h | h | h | h | h | h <;> subst h <;> exact ⟨_, rfl⟩

theorem compare_String_error_of_not_mem (c : predExpCompare)
    (h : c.tag ∉ [200, 201, 202, 203, 204, 205, 210, 211, 212, 220, 221]) :
    c.String = .error ("unexpected predicate tag:%!(EXTRA uint16=" ++ toString c.tag ++ ")") := by
  simp only [List.mem_cons, List.mem_singleton, List.not_mem_nil, or_false, not_or] at h
  obtain ⟨h1, h2, h3, h4, h5, h6, h7, h8, h9, h10, h11⟩ := h
  simp [predExpCompare.String, _AS_PREDEXP_INTEGER_EQUAL, _AS_PREDEXP_STRING_EQUAL,
    _AS_PREDEXP_INTEGER_UNEQUAL, _AS_PREDEXP_STRING_UNEQUAL, _AS_PREDEXP_INTEGER_GREATER,
    _AS_PREDEXP_INTEGER_GREATEREQ, _AS_PREDEXP_INTEGER_LESS, _AS_PREDEXP_INTEGER_LESSEQ,
    _AS_PREDEXP_STRING_REGEX, _AS_PREDEXP_GEOJSON_CONTAINS, _AS_PREDEXP_GEOJSON_WITHIN,
    h1, h2, h3, h4, h5, h6, h7, h8, h9, h10, h11]

/-- C14: an unrecognized tag at the description step is fatal and is never
given a default string: `predExpMD.String` panics if and only if its tag is
not one of 150, 151, 152, and `predExpCompare.String` panics if and only if its
tag is not one of 200..205, 210, 211, 212, 220, 221; in every other case, and
only then, a string is returned. -/
theorem String_panics_iff_unknown_tag (m : predExpMD) (c : predExpCompare) :
    ((∃ v, m.String = .error v) ↔ m.tag ∉ [150, 151, 152]) ∧
    ((∃ s, m.String = .ok s) ↔ m.tag ∈ [150, 151, 152]) ∧
    ((∃ v, c.String = .error v) ↔
      c.tag ∉ [200, 201, 202, 203, 204, 205, 210, 211, 212, 220, 221]) ∧
    ((∃ s, c.String = .ok s) ↔
      c.tag ∈ [200, 201, 202, 203, 204, 205, 210, 211, 212, 220, 221]) := by
  refine ⟨⟨?_, ?_⟩, ⟨?_, ?_⟩, ⟨?_, ?_⟩, ⟨?_, ?_⟩⟩
  · rintro ⟨v, hv⟩ hmem
    obtain ⟨s, hs⟩ := md_String_ok_of_mem m hmem
    rw [hs] at hv
    cases hv
  · exact fun h => ⟨_, md_String_error_of_not_mem m h⟩
  · rintro ⟨s, hs⟩
    by_contra hmem
    rw [md_String_error_of_not_mem m hmem] at hs
    cases hs
  · exact md_String_ok_of_mem m
  · rintro ⟨v, hv⟩ hmem
    obtain ⟨s, hs⟩ := compare_String_ok_of_mem c hmem
    rw [hs] at hv
    cases hv
  · exact fun h => ⟨_, compare_String_error_of_not_mem c h⟩
  · rintro ⟨s, hs⟩
    by_contra hmem
    rw [compare_String_error_of_not_mem c hmem] at hs
    cases hs
  · exact compare_String_ok_of_mem c

/-- Every `marshal` method ends in `return nil` and calls the writers as
statements: for every node and every implementation of the write interface, the
error that `marshal` returns is nil, whatever the writers returned. -/
theorem marshal_returns_nil {σ : Type} (W : SinkWriter σ) (e : predExp) (cmd : σ) :
    (e.marshal W cmd).2 = none := by
  cases e <;> rfl

/-- C16: encoding is deterministic and does not depend on the sink: for
every node and any two buffers, whatever bytes they already hold, `marshal`
leaves the old content of each in front and appends the same bytes to both; and
a second `marshal` of the node, into the buffer the first one left, appends the
same bytes again. -/
theorem marshal_sink_independent (e : predExp) (cmd₁ cmd₂ : baseCommand) :
    ∃ out : List Byte,
      e.marshal baseCommand.writer cmd₁ = (⟨cmd₁.dataBuffer ++ out⟩, none) ∧
      e.marshal baseCommand.writer cmd₂ = (⟨cmd₂.dataBuffer ++ out⟩, none) ∧
      e.marshal baseCommand.writer (e.marshal baseCommand.writer cmd₁).1
        = (⟨cmd₁.dataBuffer ++ out ++ out⟩, none) :=
  ⟨e.encode, marshal_eq e cmd₁, marshal_eq e cmd₂, by rw [marshal_eq, marshal_eq]⟩

/-- C17: for every list of nodes returned by public constructors, marshalling
them one after another into an empty buffer leaves a buffer whose length is the
sum of the nodes' `marshaledSize()` values. -/
theorem total_size_eq_sum (cs : List Constructor) :
    (marshalAll baseCommand.writer (cs.map Constructor.node) ⟨[]⟩).dataBuffer.length
      = ((cs.map Constructor.node).map predExp.marshaledSize).sum := by
  rw [marshalAll_eq]
  simp only [List.nil_append]
  induction cs with
  | nil => rfl
  | cons c cs ih =>
    simp only [List.map_cons, List.flatten_cons, List.length_append, List.sum_cons, ih,
      length_encode]

/-- C18: bin encoding neither truncates nor checks the name: for every bin
node, whatever the byte length `L` of its name, and every buffer, `marshal`
returns nil and appends a header whose len reads back as `1 + L` modulo `2^32`,
then a length byte equal to `L mod 256`, then all `L` bytes of the name; the
length byte differs from `L` exactly when `L > 255`. -/
theorem bin_marshal_any_length (e : predExpBin) (cmd : baseCommand) :
    ∃ (out : List Byte) (b : Byte),
      e.marshal baseCommand.writer cmd = (⟨cmd.dataBuffer ++ out⟩, none) ∧
      Framed out (e.tag % 65536) ((1 + e.name.length) % 4294967296) (b :: e.name) ∧
      out.length = 6 + 1 + e.name.length ∧
      b.val = e.name.length % 256 ∧
      (b.val ≠ e.name.length ↔ 255 < e.name.length) := by
  refine ⟨_, byte e.name.length, bin_marshal_bytes e cmd, ⟨?_, drop_put _ _ _⟩, ?_, rfl, ?_⟩
  · rw [decodeTL_put, Nat.mod_mod]
  · simp; omega
  · simp only [byte_val]; omega

/-- C19: the description of a comparison node is the bare symbol and does not
tell the operand type: "=" for IntegerEqual and StringEqual, "!=" for
IntegerUnequal and StringUnequal, ">" for IntegerGreater, ">=" for
IntegerGreaterEq, "<" for IntegerLess, "<=" for IntegerLessEq, "WITHIN" for
GeoJSONWithin, "CONTAINS" for GeoJSONContains; so `String` gives one result
for nodes whose wire tags differ. -/
theorem compare_String_symbols :
    NewPredExpIntegerEqual.String = .ok "=" ∧
    NewPredExpStringEqual.String = .ok "=" ∧
    NewPredExpIntegerUnequal.String = .ok "!=" ∧
    NewPredExpStringUnequal.String = .ok "!=" ∧
    NewPredExpIntegerGreater.String = .ok ">" ∧
    NewPredExpIntegerGreaterEq.String = .ok ">=" ∧
    NewPredExpIntegerLess.String = .ok "<" ∧
    NewPredExpIntegerLessEq.String = .ok "<=" ∧
    NewPredExpGeoJSONWithin.String = .ok "WITHIN" ∧
    NewPredExpGeoJSONContains.String = .ok "CONTAINS" ∧
    NewPredExpIntegerEqual.String = NewPredExpStringEqual.String ∧
    NewPredExpIntegerEqual.tag ≠ NewPredExpStringEqual.tag ∧
    NewPredExpIntegerUnequal.String = NewPredExpStringUnequal.String ∧
    NewPredExpIntegerUnequal.tag ≠ NewPredExpStringUnequal.tag ∧
    ¬ Function.Injective predExpCompare.String := by
  refine ⟨rfl, rfl, rfl, rfl, rfl, rfl, rfl, rfl, rfl, rfl, rfl, by decide, rfl, by decide, ?_⟩
  intro hinj
  have h : NewPredExpIntegerEqual = NewPredExpStringEqual := hinj rfl
  exact absurd (congrArg predExpCompare.tag h) (by decide)

/-- C20: the fatal branch of the description step cannot be reached through
the public constructors: for the node returned by each of the three metadata
constructors and of the ten comparison constructors, `String()` returns a
string and does not panic. -/
theorem String_total_on_constructors :
    (∃ s, NewPredExpRecSize.String = .ok s) ∧
    (∃ s, NewPredExpLastUpdate.String = .ok s) ∧
    (∃ s, NewPredExpVoidTime.String = .ok s) ∧
    (∃ s, NewPredExpIntegerEqual.String = .ok s) ∧
    (∃ s, NewPredExpIntegerUnequal.String = .ok s) ∧
    (∃ s, NewPredExpIntegerGreater.String = .ok s) ∧
    (∃ s, NewPredExpIntegerGreaterEq.String = .ok s) ∧
    (∃ s, NewPredExpIntegerLess.String = .ok s) ∧
    (∃ s, NewPredExpIntegerLessEq.String = .ok s) ∧
    (∃ s, NewPredExpStringEqual.String = .ok s) ∧
    (∃ s, NewPredExpStringUnequal.String = .ok s) ∧
    (∃ s, NewPredExpGeoJSONWithin.String = .ok s) ∧
    (∃ s, NewPredExpGeoJSONContains.String = .ok s) :=
  ⟨⟨_, rfl⟩, ⟨_, rfl⟩, ⟨_, rfl⟩, ⟨_, rfl⟩, ⟨_, rfl⟩, ⟨_, rfl⟩, ⟨_, rfl⟩, ⟨_, rfl⟩, ⟨_, rfl⟩,
    ⟨_, rfl⟩, ⟨_, rfl⟩, ⟨_, rfl⟩, ⟨_, rfl⟩⟩

end Aerospike
